import Mathlib

/-!
# Verification of the mind-scan-report visit-ingestion and analytics core

Shallow embedding of the stage-normalization, confidence-extraction,
visit-ingestion, dashboard-analytics and export code of the repository.
The definitions are translated from the final serverless variant of the
`process-mri` function (supabase/migrations/20250809200000, third variant),
the database schema (enum `dementia_stage`, column types of `visits`), and
the client-side components `InsightsPanel` and `ResearchExport`.
-/

namespace MindScan

/-! ## JavaScript string primitives -/

/-- Modelled from the spec: the regular-expression class `\s` used by
`String.prototype.replace(/\s+/g, '_')`; ASCII whitespace characters. -/
def jsWs (c : Char) : Bool :=
  c = ' ' || c = '\t' || c = '\n' || c = '\r' || c = '\x0b' || c = '\x0c'

/-- Helper for `jsReplaceWs`: the boolean argument records whether the
previous character was part of a whitespace run already replaced. -/
def squashWsAux : Bool → List Char → List Char
  | _, [] => []
  | inRun, c :: cs =>
    if jsWs c then
      if inRun then squashWsAux true cs else '_' :: squashWsAux true cs
    else c :: squashWsAux false cs

/-- `apiClass.replace(/\s+/g, '_')`: every maximal whitespace run becomes a
single underscore. -/
def jsReplaceWs (s : String) : String := ⟨squashWsAux false s.data⟩

/-- `String.prototype.toLowerCase()` restricted to ASCII case mapping. -/
def jsToLower (s : String) : String := ⟨s.data.map Char.toLower⟩

/-- `a == b` leading-segment test on character lists (needle first). -/
def leadsWith : List Char → List Char → Bool
  | [], _ => true
  | _ :: _, [] => false
  | a :: as, b :: bs => a == b && leadsWith as bs

/-- Substring containment on character lists: does `needle` occur
contiguously inside the second argument? -/
def containsSeq (needle : List Char) : List Char → Bool
  | [] => leadsWith needle []
  | c :: cs => leadsWith needle (c :: cs) || containsSeq needle cs

/-- `hay.includes(sub)` — JavaScript substring containment. -/
def strIncludes (hay sub : String) : Bool := containsSeq sub.data hay.data

/-! ## Stage Normalizer (`mapToDementiaStage`, final serverless variant) -/

/-- `VALID_DEMENTIA_STAGES` — the database enum labels, in source order. -/
def validDementiaStages : List String :=
  ["Normal", "Very_Mild_Dementia", "Mild_Dementia", "Moderate_Dementia"]

/-- The fixed label→enum `mappings` table of `mapToDementiaStage`. -/
def stageMappings : List (String × String) :=
  [("Non Demented", "Normal"),
   ("Very Mild Dementia", "Very_Mild_Dementia"),
   ("Mild Dementia", "Mild_Dementia"),
   ("Moderate Dementia", "Moderate_Dementia")]

/-- `apiClass.replace(/\s+/g, '_').toLowerCase()` — the normalized label
used by the fuzzy and keyword steps. -/
def normalizeLabel (s : String) : String := jsToLower (jsReplaceWs s)

/-- The `for (const validStage of VALID_DEMENTIA_STAGES)` containment loop:
`normalized.includes(stage.toLowerCase().replace(/_/g, '')) ||
 stage.toLowerCase().replace(/_/g, '').includes(normalized)`. -/
def fuzzyLoop (normalized : String) : List String → Option String
  | [] => none
  | st :: rest =>
    let cand : String := ⟨(jsToLower st).data.filter (fun c => c ≠ '_')⟩
    if strIncludes normalized cand || strIncludes cand normalized then some st
    else fuzzyLoop normalized rest

/-- `mapToDementiaStage` (final serverless variant): maps a free-text label
from the external classifier to one of the four enum labels, or `none`.
The empty string is falsy in JavaScript, so `if (!apiClass) return null`
covers it. -/
def mapToDementiaStage (apiClass : String) : Option String :=
  if apiClass = "" then none
  else
    match stageMappings.find? (fun m => m.1 == apiClass) with
    | some m => some m.2
    | none =>
      let normalized := normalizeLabel apiClass
      match fuzzyLoop normalized validDementiaStages with
      | some st => some st
      | none =>
        if strIncludes normalized "normal" || strIncludes normalized "non" then
          some "Normal"
        else if strIncludes normalized "verymild" || strIncludes normalized "very_mild" then
          some "Very_Mild_Dementia"
        else if strIncludes normalized "mild" && !(strIncludes normalized "very") then
          some "Mild_Dementia"
        else if strIncludes normalized "moderate" then
          some "Moderate_Dementia"
        else none

/-! Decomposition of the normalizer into its three precedence steps, used
to state the ordering claim. -/

/-- Step (a): exact-match lookup in the fixed table. -/
def exactStep (apiClass : String) : Option String :=
  (stageMappings.find? (fun m => m.1 == apiClass)).map (·.2)

/-- Step (b): whitespace/case normalization followed by containment
matching against the normalized enum names. -/
def fuzzyStep (apiClass : String) : Option String :=
  fuzzyLoop (normalizeLabel apiClass) validDementiaStages

/-- Step (c): the keyword fallback on the normalized label. -/
def keywordStep (apiClass : String) : Option String :=
  if strIncludes (normalizeLabel apiClass) "normal" ||
      strIncludes (normalizeLabel apiClass) "non" then
    some "Normal"
  else if strIncludes (normalizeLabel apiClass) "verymild" ||
      strIncludes (normalizeLabel apiClass) "very_mild" then
    some "Very_Mild_Dementia"
  else if strIncludes (normalizeLabel apiClass) "mild" &&
      !(strIncludes (normalizeLabel apiClass) "very") then
    some "Mild_Dementia"
  else if strIncludes (normalizeLabel apiClass) "moderate" then
    some "Moderate_Dementia"
  else none

/-- First-defined-wins combination of two optional results. -/
def firstSome (a b : Option String) : Option String :=
  match a with
  | some v => some v
  | none => b

/-! ## JavaScript numbers and the Confidence Extractor -/

/-- Modelled from the spec: the JavaScript number domain as seen by the
confidence extractor — NaN, the two infinities, or a finite value
(idealized as an exact rational). -/
inductive JsNum where
  | nan : JsNum
  | inf : JsNum
  | ninf : JsNum
  | fin : ℚ → JsNum
deriving DecidableEq

/-- Binary `Math.max`: NaN absorbs, `Infinity` dominates, `-Infinity` is
the identity. -/
def JsNum.max2 : JsNum → JsNum → JsNum
  | .nan, _ => .nan
  | _, .nan => .nan
  | .inf, _ => .inf
  | _, .inf => .inf
  | .ninf, b => b
  | a, .ninf => a
  | .fin a, .fin b => .fin (max a b)

/-- `Math.max(...values)`: `-Infinity` on the empty argument list. -/
def jsMax : List JsNum → JsNum
  | [] => .ninf
  | v :: vs => JsNum.max2 v (jsMax vs)

/-- `Math.max(0, Math.min(1, x))` on a finite value. -/
def clamp01 (q : ℚ) : ℚ := max 0 (min 1 q)

/-- `parseFloat(x.toFixed(4))`: rounding to 4 decimal places. -/
def round4 (q : ℚ) : ℚ := (round (q * 10000) : ℚ) / 10000

/-- The confidence extraction of the final serverless variant: take the
maximum of the per-class scores, keep it only if finite, clamp to [0,1]
and round to 4 decimal places; `none` when `dementiaAnalysis.confidences`
is absent or the maximum is not finite. -/
def extractConfidence (confidences : Option (List (String × JsNum))) :
    Option ℚ :=
  match confidences with
  | none => none
  | some cs =>
    match jsMax (cs.map Prod.snd) with
    | .fin q => some (round4 (clamp01 q))
    | _ => none

/-! ## Visit Ingestion Handler (final serverless variant) and the store -/

/-- The `dementiaAnalysis` block of the classifier response. -/
structure UpstreamAnalysis where
  predictedClass : Option String
  confidences : Option (List (String × JsNum))
  insights : Option String
deriving DecidableEq

/-- The JSON body returned by the external classifier endpoint. -/
structure UpstreamResponse where
  isMRI : Bool
  status : Option String
  message : Option String
  mriConfidence : Option JsNum
  dementiaAnalysis : Option UpstreamAnalysis
deriving DecidableEq

/-- Outcome of the `fetch` to the classifier: a non-2xx status
(`!apiResponse.ok`) or a parsed JSON body. -/
inductive UpstreamResult where
  | failure : Nat → UpstreamResult
  | success : UpstreamResponse → UpstreamResult
deriving DecidableEq

/-- A row of `public.visits` as inserted by the handler. -/
structure VisitRow where
  patient_id : String
  raw_report : UpstreamResponse
  predicted_class : Option String
  confidence : Option ℚ
  insights : Option String
  created_by : String
deriving DecidableEq

/-- The relational store visible to the handler: `patients` as
(id, name) pairs and the append-only `visits` table. -/
structure Store where
  patients : List (String × String)
  visits : List VisitRow
deriving DecidableEq

/-- Constraint violations surfaced by the store, as classified by the
handler's error handling (`23503`, `23502`, `22P02`, numeric range). -/
inductive DbError where
  | foreignKeyViolation : DbError
  | notNullViolation : DbError
  | invalidEnum : DbError
  | numericOverflow : DbError
deriving DecidableEq

/-- The `predicted_class` column has type `dementia_stage`: a non-null
value must be one of the four enum labels. -/
def validRowStage : Option String → Bool
  | none => true
  | some c => validDementiaStages.any (fun v => v == c)

/-- The `confidence` column has type `numeric(5,4)`: a non-null value must
have absolute value below 10. (The store also rounds stored values to
4 fractional digits; no claim depends on that, and the handler's own
4-decimal rounding already satisfies it on the valid-MRI path.) -/
def fitsNumeric54 : Option ℚ → Bool
  | none => true
  | some q => decide (-10 < q) && decide (q < 10)

/-- Insert into `public.visits`, enforcing the schema of the migration:
enum check on `predicted_class`, numeric range on `confidence`, and the
foreign key from `patient_id` to `patients.id`. -/
def insertVisit (s : Store) (r : VisitRow) : Except DbError Store :=
  if !(validRowStage r.predicted_class) then .error .invalidEnum
  else if !(fitsNumeric54 r.confidence) then .error .numericOverflow
  else if !(s.patients.any (fun p => p.1 == r.patient_id)) then
    .error .foreignKeyViolation
  else .ok { s with visits := s.visits ++ [r] }

/-- The authenticated multipart request: the verified caller identity
(`none` models a missing Authorization header or a token that does not
resolve to a user), the uploaded file and the `patientId` form field. -/
structure IngestRequest where
  authUser : Option String
  file : Option String
  patientId : Option String
deriving DecidableEq

/-- The handler's thrown errors, keyed by the message each `throw` uses. -/
inductive HandlerError where
  | unauthorized : HandlerError
  | noFile : HandlerError
  | noPatientId : HandlerError
  | apiCallFailed : Nat → HandlerError
  | missingAnalysis : HandlerError
  | storage : DbError → HandlerError
deriving DecidableEq

/-- The success JSON body: the saved visit and the `isValid` flag. -/
structure SuccessBody where
  visit : VisitRow
  isValid : Bool
deriving DecidableEq

/-- The handler's observable outcome: the HTTP response (error or success
body) together with the store state after the call. -/
structure HandlerOutput where
  response : Except HandlerError SuccessBody
  store : Store

/-- `x || null` on an optional string: the empty string is falsy. -/
def truthyOrNull : Option String → Option String
  | some s => if s = "" then none else some s
  | none => none

/-- `personalizeInsights`: prefix a personalized header when both the
insight text and the patient name are truthy. -/
def personalizeInsights (insights patientName : Option String) :
    Option String :=
  match insights, patientName with
  | some i, some n =>
    if i = "" || n = "" then some i
    else some ("Patient Analysis for " ++ n ++ "\n\n" ++ i)
  | i, _ => i

/-- Modelled from the spec: serialization of a JavaScript number into the
insert payload — JSON has no NaN or Infinity, so non-finite (and absent)
numbers serialize to null. -/
def jsNumToDb : Option JsNum → Option ℚ
  | some (.fin q) => some q
  | _ => none

/-- The row inserted on the non-MRI branch: null predicted stage, the
upstream's own `mriConfidence`, and the descriptive note built from
`message || ''`. -/
def nonMriRow (pid : String) (body : UpstreamResponse) (uid : String) :
    VisitRow :=
  { patient_id := pid
    raw_report := body
    predicted_class := none
    confidence := jsNumToDb body.mriConfidence
    insights := some ("Not an MRI scan. " ++ body.message.getD "")
    created_by := uid }

/-- The row inserted on the valid-MRI branch: normalized stage, extracted
confidence, personalized insights. -/
def mriRow (pid : String) (body : UpstreamResponse)
    (analysis : UpstreamAnalysis) (patientName : Option String)
    (uid : String) : VisitRow :=
  { patient_id := pid
    raw_report := body
    predicted_class := (truthyOrNull analysis.predictedClass).bind mapToDementiaStage
    confidence := extractConfidence analysis.confidences
    insights := personalizeInsights (truthyOrNull analysis.insights) patientName
    created_by := uid }

/-- The Visit Ingestion Handler (final serverless variant): authenticate,
validate the form fields, look up the patient name, call the classifier,
branch on the MRI signal, and insert exactly one visit row on success.
The classifier's outcome is passed as a parameter; a validation failure
returns before it is ever examined. -/
def processMri (req : IngestRequest) (upstream : UpstreamResult)
    (s : Store) : HandlerOutput :=
  match req.authUser with
  | none => ⟨.error .unauthorized, s⟩
  | some uid =>
    match req.file with
    | none => ⟨.error .noFile, s⟩
    | some _file =>
      match req.patientId with
      | none => ⟨.error .noPatientId, s⟩
      | some pid =>
        if pid = "" then ⟨.error .noPatientId, s⟩
        else
          let patientName :=
            truthyOrNull ((s.patients.find? (fun p => p.1 == pid)).map Prod.snd)
          match upstream with
          | .failure st => ⟨.error (.apiCallFailed st), s⟩
          | .success body =>
            if !body.isMRI || body.status == some "not_mri" then
              match insertVisit s (nonMriRow pid body uid) with
              | .error e => ⟨.error (.storage e), s⟩
              | .ok s' => ⟨.ok ⟨nonMriRow pid body uid, false⟩, s'⟩
            else
              match body.dementiaAnalysis with
              | none => ⟨.error .missingAnalysis, s⟩
              | some analysis =>
                match insertVisit s (mriRow pid body analysis patientName uid) with
                | .error e => ⟨.error (.storage e), s⟩
                | .ok s' => ⟨.ok ⟨mriRow pid body analysis patientName uid, true⟩, s'⟩

/-- The stored-visit invariant of the claim: stage values are enum labels
and confidences lie in the store's numeric range. -/
def storeInv (s : Store) : Prop :=
  ∀ v ∈ s.visits,
    (∀ c, v.predicted_class = some c → c ∈ validDementiaStages) ∧
    (∀ q, v.confidence = some q → -10 < q ∧ q < 10)

/-! ## Dashboard Analytics (`InsightsPanel`) -/

/-- A visit row as read by the client dashboard; `created_at` is the
epoch-milliseconds timestamp (`new Date(created_at).getTime()`). Fields
not read by the verified components are omitted. -/
structure ClientVisit where
  created_at : Nat
  patient_id : String
  predicted_class : Option String
  confidence : Option ℚ
  insights : Option String
deriving DecidableEq

/-- `mapStageToIndex`: a falsy (null/empty) stage returns 0, the four
enum names map to their ordinals, and `mapping[stage] ?? 0` sends any
other label to 0. -/
def mapStageToIndex : Option String → ℚ
  | none => 0
  | some s =>
    if s = "" then 0
    else if s = "Normal" then 0
    else if s = "Very_Mild_Dementia" then 1
    else if s = "Mild_Dementia" then 2
    else if s = "Moderate_Dementia" then 3
    else 0

/-- Insert a visit into a list already sorted by `created_at`, after all
strictly earlier timestamps (stability helper for `sortedVisits`). -/
def insertByTime (v : ClientVisit) : List ClientVisit → List ClientVisit
  | [] => [v]
  | w :: ws =>
    if w.created_at < v.created_at then w :: insertByTime v ws
    else v :: w :: ws

/-- Modelled from the spec: the `[...visits].sort((a, b) =>
getTime(a.created_at) - getTime(b.created_at))` step — a stable ascending
sort by creation timestamp, realized as a stable insertion sort. -/
def sortedVisits : List ClientVisit → List ClientVisit
  | [] => []
  | v :: vs => insertByTime v (sortedVisits vs)

/-- `stageSeries`: (sequence index, stage ordinal) pairs in chronological
order. -/
def stageSeries (vs : List ClientVisit) : List (ℕ × ℚ) :=
  (sortedVisits vs).enum.map
    (fun p => (p.1, mapStageToIndex p.2.predicted_class))

/-- The source's `xMean`: mean of the sequence indices. -/
def xMean (pts : List (ℕ × ℚ)) : ℚ :=
  (pts.map (fun p => (p.1 : ℚ))).sum / pts.length

/-- The source's `yMean`: mean of the stage ordinals. -/
def yMean (pts : List (ℕ × ℚ)) : ℚ :=
  (pts.map Prod.snd).sum / pts.length

/-- The source's `numerator`: sum of (x - x̄)(y - ȳ). -/
def numerator (pts : List (ℕ × ℚ)) : ℚ :=
  (pts.map (fun p => ((p.1 : ℚ) - xMean pts) * (p.2 - yMean pts))).sum

/-- The source's `denominator` before the `|| 1` guard: sum of (x - x̄)². -/
def denominator0 (pts : List (ℕ × ℚ)) : ℚ :=
  (pts.map (fun p => ((p.1 : ℚ) - xMean pts) ^ 2)).sum

/-- The linear-trend forecast of `InsightsPanel`: least-squares slope and
intercept over (idx, stageIndex) and projections one and two steps past
the last index; empty when fewer than two visits. The `|| 1` guard on the
denominator mirrors the source (0 is falsy). -/
def forecastPoints (series : List (ℕ × ℚ)) : List ℚ :=
  if 2 ≤ series.length then
    let slope := numerator series /
      (if denominator0 series = 0 then 1 else denominator0 series)
    let intercept := yMean series - slope * xMean series
    let lastIdx : ℚ := ((series.getLastD (0, 0)).1 : ℚ)
    [slope * (lastIdx + 1) + intercept, slope * (lastIdx + 2) + intercept]
  else []

/-- Ordinary least-squares slope, stated as in the spec (no guard). -/
def olsSlope (pts : List (ℕ × ℚ)) : ℚ := numerator pts / denominator0 pts

/-- Ordinary least-squares intercept, stated as in the spec. -/
def olsIntercept (pts : List (ℕ × ℚ)) : ℚ :=
  yMean pts - olsSlope pts * xMean pts

/-- The least-squares prediction at abscissa `x`, stated as in the spec. -/
def olsPredict (pts : List (ℕ × ℚ)) (x : ℚ) : ℚ :=
  olsSlope pts * x + olsIntercept pts

/-- `Math.max(0, Math.min(3, x))` — clamping used by `chartData` and
`riskProbability`. -/
def clamp03 (q : ℚ) : ℚ := max 0 (min 3 q)

/-- The `Forecast` series of `chartData`: forecast values clamped to the
stage range [0,3]. -/
def chartForecast (series : List (ℕ × ℚ)) : List ℚ :=
  (forecastPoints series).map clamp03

/-- `riskProbability`: null without a forecast; otherwise the clamped
ratio of (clamped two-step projection minus current stage) over the
maximum possible delta of 2. -/
def riskProbability (series : List (ℕ × ℚ)) : Option ℚ :=
  match forecastPoints series with
  | [] => none
  | fps =>
    some (clamp01 ((clamp03 (fps.getLastD 0) - (series.getLastD (0, 0)).2) / 2))

/-! ## Research export (`ResearchExport`) -/

/-- A CSV cell value before JSON-stringification: a string or a number
(the `?? ''` fallback turns an absent value into the empty string). -/
inductive CellVal where
  | str : String → CellVal
  | num : ℚ → CellVal
deriving DecidableEq

/-- Modelled from the spec: JSON string escaping as performed by
`JSON.stringify` on the common characters (backslash, quote, newline,
carriage return, tab); other characters are emitted unchanged. -/
def jsonEscapeChar (c : Char) : List Char :=
  if c = '\\' then ['\\', '\\']
  else if c = '"' then ['\\', '"']
  else if c = '\n' then ['\\', 'n']
  else if c = '\r' then ['\\', 'r']
  else if c = '\t' then ['\\', 't']
  else [c]

/-- Drop trailing zero digits of a fractional part. -/
def stripTrailingZeros (s : List Char) : List Char :=
  (s.reverse.dropWhile (fun c => c = '0')).reverse

/-- Zero-pad a fractional part to 4 digits. -/
def pad4 (n : Nat) : List Char :=
  List.replicate (4 - (toString n).length) '0' ++ (toString n).data

/-- Modelled from the spec: the decimal rendering `JSON.stringify` gives
a number. Values with at most 4 fractional digits (the store's
numeric(5,4) scale) render as exact decimals; other rationals render as
numerator/denominator. No claim depends on the exact digits. -/
def numRepr (q : ℚ) : String :=
  if (q * 10000).den = 1 then
    let n := (q * 10000).num
    let sign := if n < 0 then "-" else ""
    let a := n.natAbs
    if a % 10000 = 0 then sign ++ toString (a / 10000)
    else sign ++ toString (a / 10000) ++ "." ++
      String.mk (stripTrailingZeros (pad4 (a % 10000)))
  else toString q.num ++ "/" ++ toString q.den

/-- `JSON.stringify` of a cell: strings are quoted and escaped, numbers
rendered in decimal. -/
def jsonStringifyCell : CellVal → String
  | .str s => "\"" ++ String.mk (s.data.flatMap jsonEscapeChar) ++ "\""
  | .num q => numRepr q

/-- Modelled from the spec: `new Date(t).toISOString()` — an injective
rendering of the epoch-millisecond timestamp; the exact ISO-8601 layout
is presentational and not relied on by any claim. -/
def dateISO (t : Nat) : String := "ts:" ++ toString t

/-- One row of the anonymized export (`exportAnonymized`): the patient
identity is replaced by the position-based placeholder `P{idx+1}`; the
metrics are kept. -/
def anonRow (idx : Nat) (v : ClientVisit) : List (String × CellVal) :=
  [("anon_id", .str ("P" ++ toString (idx + 1))),
   ("date", .str (dateISO v.created_at)),
   ("stage", .str ((truthyOrNull v.predicted_class).getD "")),
   ("confidence", match v.confidence with
     | some q => .num q
     | none => .str ""),
   ("insights_len", .num (match truthyOrNull v.insights with
     | some i => (i.length : ℚ)
     | none => 0))]

/-- `r[h] ?? ''` — field lookup in a row, empty string when absent. -/
def csvLookup (r : List (String × CellVal)) (h : String) : CellVal :=
  match r.find? (fun p => p.1 == h) with
  | some p => p.2
  | none => .str ""

/-- `toCSV`: header row from the first row's keys; each cell is
`JSON.stringify(r[h] ?? '')`; cells joined with commas, rows with
newlines. -/
def toCSV (rows : List (List (String × CellVal))) : String :=
  match rows with
  | [] => ""
  | r0 :: _ =>
    String.intercalate "\n"
      ((String.intercalate "," (r0.map Prod.fst)) ::
        rows.map (fun r =>
          String.intercalate ","
            ((r0.map Prod.fst).map (fun h => jsonStringifyCell (csvLookup r h)))))

/-- `exportAnonymized`: anonymized rows (P1, P2, ... by list position)
fed to `toCSV`. -/
def exportAnonymizedCSV (vs : List ClientVisit) : String :=
  toCSV (vs.enum.map (fun p => anonRow p.1 p.2))

/-- Agreement on every visit field except the patient identity. -/
def agreeExceptPatient (v w : ClientVisit) : Prop :=
  v.created_at = w.created_at ∧ v.predicted_class = w.predicted_class ∧
  v.confidence = w.confidence ∧ v.insights = w.insights

end MindScan

namespace MindScan

/-! ## Theorems -/

@[simp] theorem firstSome_some (v : String) (b : Option String) :
    firstSome (some v) b = some v := rfl

@[simp] theorem firstSome_none (b : Option String) : firstSome none b = b := rfl

/-- The normalizer is exactly the precedence chain of its three steps,
guarded by the falsy-label check. -/
theorem mapToDementiaStage_eq_steps (s : String) :
    mapToDementiaStage s =
      if s = "" then none
      else firstSome (exactStep s) (firstSome (fuzzyStep s) (keywordStep s)) := by
  by_cases hs : s = ""
  · simp [mapToDementiaStage, hs]
  · simp only [mapToDementiaStage, hs, if_false]
    cases h : stageMappings.find? (fun m => m.1 == s) with
    | some m => simp [exactStep, h]
    | none =>
      cases h2 : fuzzyLoop (normalizeLabel s) validDementiaStages with
      | some st => simp [exactStep, fuzzyStep, h, h2]
      | none => simp [exactStep, fuzzyStep, keywordStep, h, h2]

/-- The containment loop only ever returns an element of the list it
iterates over. -/
theorem fuzzyLoop_mem (n : String) :
    ∀ (l : List String) (st : String), fuzzyLoop n l = some st → st ∈ l := by
  intro l
  induction l with
  | nil => intro st h; simp [fuzzyLoop] at h
  | cons a as ih =>
    intro st h
    simp only [fuzzyLoop] at h
    split at h
    · cases h; exact List.mem_cons_self a as
    · exact List.mem_cons_of_mem _ (ih st h)

/-- The exact-match step only returns enum labels from the table. -/
theorem exactStep_range (s r : String) (h : exactStep s = some r) :
    r ∈ validDementiaStages := by
  unfold exactStep at h
  cases hf : stageMappings.find? (fun m => m.1 == s) with
  | none => rw [hf] at h; simp at h
  | some m =>
    rw [hf] at h
    simp only [Option.map_some', Option.some.injEq] at h
    have hm := List.mem_of_find?_eq_some hf
    have htab : ∀ p ∈ stageMappings, p.2 ∈ validDementiaStages := by decide
    rw [← h]; exact htab m hm

/-- The keyword step only returns enum labels. -/
theorem keywordStep_range (s r : String) (h : keywordStep s = some r) :
    r ∈ validDementiaStages := by
  unfold keywordStep at h
  split at h
  · cases h; decide
  · split at h
    · cases h; decide
    · split at h
      · cases h; decide
      · split at h
        · cases h; decide
        · simp at h

/-- The normalizer never passes a raw label through: any non-null output
is one of the four enum labels. -/
theorem mapToDementiaStage_range (s r : String)
    (h : mapToDementiaStage s = some r) : r ∈ validDementiaStages := by
  rw [mapToDementiaStage_eq_steps] at h
  by_cases hs : s = ""
  · simp [hs] at h
  · rw [if_neg hs] at h
    cases he : exactStep s with
    | some v =>
      rw [he, firstSome_some] at h
      cases h
      exact exactStep_range s _ he
    | none =>
      rw [he, firstSome_none] at h
      cases hf : fuzzyStep s with
      | some v =>
        rw [hf, firstSome_some] at h
        cases h
        exact fuzzyLoop_mem _ _ _ hf
      | none =>
        rw [hf, firstSome_none] at h
        exact keywordStep_range s r h

/-- C1: for every input label, the Stage Normalizer applies its steps in
the fixed precedence order — (a) exact-match against the fixed table,
(b) else whitespace/case normalization and containment matching against
the normalized enum names, (c) else the keyword fallback, (d) else `null`
(the falsy/empty label returns `null` directly) — and it never defaults an
unmatched label to a stage or passes a raw label through: every non-null
output is one of the four enum labels. -/
theorem stage_normalizer_precedence (s : String) :
    mapToDementiaStage s =
      (if s = "" then none
       else firstSome (exactStep s) (firstSome (fuzzyStep s) (keywordStep s))) ∧
    (∀ r, mapToDementiaStage s = some r → r ∈ validDementiaStages) :=
  ⟨mapToDementiaStage_eq_steps s, fun r h => mapToDementiaStage_range s r h⟩

/-- Witness for `stage_normalizer_precedence` at the concrete label
"Mild Dementia". -/
theorem stage_normalizer_precedence_witness :
    "Mild_Dementia" ∈ validDementiaStages :=
  (stage_normalizer_precedence "Mild Dementia").2 "Mild_Dementia" (by decide)

/-- C2: each of the four external-model labels maps deterministically to
its enum value, and already via the exact-match table. -/
theorem stage_normalizer_exact_table :
    mapToDementiaStage "Non Demented" = some "Normal" ∧
    mapToDementiaStage "Very Mild Dementia" = some "Very_Mild_Dementia" ∧
    mapToDementiaStage "Mild Dementia" = some "Mild_Dementia" ∧
    mapToDementiaStage "Moderate Dementia" = some "Moderate_Dementia" ∧
    exactStep "Non Demented" = some "Normal" ∧
    exactStep "Very Mild Dementia" = some "Very_Mild_Dementia" ∧
    exactStep "Mild Dementia" = some "Mild_Dementia" ∧
    exactStep "Moderate Dementia" = some "Moderate_Dementia" := by decide

/-- C3 fails on the code: the label "non-moderate" does not exact-match
the table and contains the substring "moderate" (case-insensitively), yet
the normalizer returns `Normal`, because the `'non'` keyword check
precedes the `'moderate'` keyword check. -/
theorem moderate_keyword_counterexample :
    exactStep "non-moderate" = none ∧
    strIncludes (jsToLower "non-moderate") "moderate" = true ∧
    mapToDementiaStage "non-moderate" = some "Normal" ∧
    mapToDementiaStage "non-moderate" ≠ some "Moderate_Dementia" := by decide

/-- C3 (amended): an unmatched label containing "moderate" maps to
`Moderate_Dementia` provided no earlier rule fires (enum-name containment,
the "normal"/"non" keywords, the "very mild" keywords, or the standalone
"mild" keyword); a label containing "verymild"/"very_mild" in normalized
form maps to `Very_Mild_Dementia` — even though it also contains "mild" —
provided no earlier rule fires. -/
theorem moderate_and_very_mild_keyword_rules :
    (∀ s : String, exactStep s = none → fuzzyStep s = none →
      strIncludes (normalizeLabel s) "normal" = false →
      strIncludes (normalizeLabel s) "non" = false →
      strIncludes (normalizeLabel s) "verymild" = false →
      strIncludes (normalizeLabel s) "very_mild" = false →
      (strIncludes (normalizeLabel s) "mild" && !(strIncludes (normalizeLabel s) "very")) = false →
      strIncludes (normalizeLabel s) "moderate" = true →
      mapToDementiaStage s = some "Moderate_Dementia") ∧
    (∀ s : String, exactStep s = none → fuzzyStep s = none →
      strIncludes (normalizeLabel s) "normal" = false →
      strIncludes (normalizeLabel s) "non" = false →
      (strIncludes (normalizeLabel s) "verymild" = true ∨
       strIncludes (normalizeLabel s) "very_mild" = true) →
      mapToDementiaStage s = some "Very_Mild_Dementia") := by
  constructor
  · intro s he hf hnormal hnon hvm hvmu hmild hmod
    have hs : s ≠ "" := by
      intro hs0
      rw [hs0] at hmod
      exact absurd hmod (by decide)
    rw [mapToDementiaStage_eq_steps, if_neg hs, he, firstSome_none, hf,
      firstSome_none]
    unfold keywordStep
    simp [hnormal, hnon, hvm, hvmu, hmild, hmod]
  · intro s he hf hnormal hnon hvm
    have hs : s ≠ "" := by
      intro hs0
      rw [hs0] at hvm
      exact absurd hvm (by decide)
    rw [mapToDementiaStage_eq_steps, if_neg hs, he, firstSome_none, hf,
      firstSome_none]
    unfold keywordStep
    rcases hvm with hvm | hvm <;> simp [hnormal, hnon, hvm]

/-- Witness for `moderate_and_very_mild_keyword_rules` at the labels
"stage moderate" and "very mild stage". -/
theorem moderate_and_very_mild_keyword_rules_witness :
    mapToDementiaStage "stage moderate" = some "Moderate_Dementia" ∧
    mapToDementiaStage "very mild stage" = some "Very_Mild_Dementia" :=
  ⟨moderate_and_very_mild_keyword_rules.1 "stage moderate" (by decide)
      (by decide) (by decide) (by decide) (by decide) (by decide)
      (by decide) (by decide),
    moderate_and_very_mild_keyword_rules.2 "very mild stage" (by decide)
      (by decide) (by decide) (by decide) (Or.inr (by decide))⟩

@[simp] theorem JsNum.max2_nan_right (a : JsNum) : a.max2 .nan = .nan := by
  cases a <;> rfl

@[simp] theorem JsNum.max2_ninf_right (a : JsNum) : a.max2 .ninf = a := by
  cases a <;> rfl

/-- NaN anywhere in the argument list makes `Math.max` return NaN. -/
theorem jsMax_nan (vs : List JsNum) (h : JsNum.nan ∈ vs) :
    jsMax vs = .nan := by
  induction vs with
  | nil => cases h
  | cons a as ih =>
    rcases List.mem_cons.mp h with rfl | h2
    · rw [jsMax]; cases jsMax as <;> rfl
    · rw [jsMax, ih h2, JsNum.max2_nan_right]

/-- `Infinity` anywhere in the argument list makes `Math.max` return NaN
or `Infinity` — never a finite value. -/
theorem jsMax_inf (vs : List JsNum) (h : JsNum.inf ∈ vs) :
    jsMax vs = .nan ∨ jsMax vs = .inf := by
  induction vs with
  | nil => cases h
  | cons a as ih =>
    rcases List.mem_cons.mp h with rfl | h2
    · rw [jsMax]
      cases jsMax as <;> simp [JsNum.max2]
    · rcases ih h2 with h3 | h3 <;> rw [jsMax, h3]
      · simp
      · cases a <;> simp [JsNum.max2]

/-- If `Math.max` is `-Infinity`, every argument is `-Infinity`. -/
theorem jsMax_ninf (vs : List JsNum) (h : jsMax vs = .ninf) :
    ∀ v ∈ vs, v = JsNum.ninf := by
  induction vs with
  | nil => intro v hv; cases hv
  | cons a as ih =>
    intro v hv
    rw [jsMax] at h
    have ha : a = JsNum.ninf ∧ jsMax as = JsNum.ninf := by
      cases a <;> cases h2 : jsMax as <;> rw [h2] at h <;>
        simp_all [JsNum.max2]
    rcases List.mem_cons.mp hv with rfl | h2
    · exact ha.1
    · exact ih ha.2 v h2

/-- A finite `Math.max` is attained by one of the arguments and bounds
every finite argument from above. -/
theorem jsMax_fin (vs : List JsNum) (q : ℚ) (h : jsMax vs = .fin q) :
    JsNum.fin q ∈ vs ∧ ∀ p, JsNum.fin p ∈ vs → p ≤ q := by
  induction vs generalizing q with
  | nil => exact JsNum.noConfusion h
  | cons a as ih =>
    rw [jsMax] at h
    cases hj : jsMax as with
    | nan =>
      rw [hj, JsNum.max2_nan_right] at h
      exact JsNum.noConfusion h
    | inf =>
      rw [hj] at h
      cases a <;> exact JsNum.noConfusion h
    | ninf =>
      rw [hj, JsNum.max2_ninf_right] at h
      cases a with
      | nan => exact JsNum.noConfusion h
      | inf => exact JsNum.noConfusion h
      | ninf => exact JsNum.noConfusion h
      | fin pa =>
        injection h with h
        subst h
        refine ⟨List.mem_cons_self _ _, ?_⟩
        intro p hp
        rcases List.mem_cons.mp hp with hh | hh
        · injection hh with hh; exact le_of_eq hh
        · exact absurd (jsMax_ninf as hj _ hh) (by simp)
    | fin qt =>
      rw [hj] at h
      obtain ⟨hm, hb⟩ := ih qt hj
      cases a with
      | nan => exact JsNum.noConfusion h
      | inf => exact JsNum.noConfusion h
      | ninf =>
        injection h with h
        subst h
        refine ⟨List.mem_cons_of_mem _ hm, ?_⟩
        intro p hp
        rcases List.mem_cons.mp hp with hh | hh
        · exact JsNum.noConfusion hh
        · exact hb p hh
      | fin pa =>
        injection h with h
        subst h
        constructor
        · rcases max_choice pa qt with hmax | hmax <;> rw [hmax]
          · exact List.mem_cons_self _ _
          · exact List.mem_cons_of_mem _ hm
        · intro p hp
          rcases List.mem_cons.mp hp with hh | hh
          · injection hh with hh
            exact hh ▸ le_max_left pa qt
          · exact le_trans (hb p hh) (le_max_right pa qt)

/-- `round` is monotone. -/
theorem round_mono_rat {x y : ℚ} (h : x ≤ y) : round x ≤ round y := by
  rw [round_eq, round_eq]
  exact Int.floor_le_floor (by linarith)

/-- The clamp-and-round pipeline lands in [0,1]. -/
theorem round4_clamp01_mem (q : ℚ) :
    0 ≤ round4 (clamp01 q) ∧ round4 (clamp01 q) ≤ 1 := by
  have h0 : (0 : ℚ) ≤ clamp01 q := le_max_left 0 _
  have h1 : clamp01 q ≤ 1 := by
    apply max_le
    · norm_num
    · exact min_le_left 1 q
  have hlo : (0 : ℤ) ≤ round (clamp01 q * 10000) := by
    have := round_mono_rat (x := 0) (y := clamp01 q * 10000) (by nlinarith)
    simpa using this
  have hhi : round (clamp01 q * 10000) ≤ 10000 := by
    have := round_mono_rat (x := clamp01 q * 10000) (y := 10000) (by nlinarith)
    simpa using this
  constructor
  · unfold round4
    positivity
  · unfold round4
    rw [div_le_one (by norm_num)]
    exact_mod_cast hhi

/-- Any non-null extracted confidence lies in [0,1]. -/
theorem extractConfidence_mem_Icc (co : Option (List (String × JsNum)))
    (r : ℚ) (hr : extractConfidence co = some r) : 0 ≤ r ∧ r ≤ 1 := by
  cases co with
  | none => exact Option.noConfusion hr
  | some cs =>
    have hsome : extractConfidence (some cs) =
        match jsMax (cs.map Prod.snd) with
        | .fin q => some (round4 (clamp01 q))
        | _ => none := rfl
    rw [hsome] at hr
    cases hj : jsMax (cs.map Prod.snd) <;> rw [hj] at hr
    · exact Option.noConfusion hr
    · exact Option.noConfusion hr
    · exact Option.noConfusion hr
    · injection hr with hr
      exact hr ▸ round4_clamp01_mem _

/-- C4: for every per-class confidence mapping, the Confidence Extractor
returns the maximum value across the mapping, clamped into [0,1] and
rounded to at most 4 decimal places; an absent mapping, or one containing
NaN or Infinity, yields `null`; any non-null result is finite and lies in
[0,1], so a non-finite value is never returned. -/
theorem confidence_extractor_spec :
    extractConfidence none = none ∧
    (∀ cs : List (String × JsNum),
      (JsNum.nan ∈ cs.map Prod.snd → extractConfidence (some cs) = none) ∧
      (JsNum.inf ∈ cs.map Prod.snd → extractConfidence (some cs) = none) ∧
      (∀ q, jsMax (cs.map Prod.snd) = .fin q →
        extractConfidence (some cs) = some (round4 (clamp01 q)) ∧
        JsNum.fin q ∈ cs.map Prod.snd ∧
        ∀ p, JsNum.fin p ∈ cs.map Prod.snd → p ≤ q) ∧
      (∀ r, extractConfidence (some cs) = some r → 0 ≤ r ∧ r ≤ 1)) := by
  have hsome : ∀ cs : List (String × JsNum),
      extractConfidence (some cs) =
        match jsMax (cs.map Prod.snd) with
        | .fin q => some (round4 (clamp01 q))
        | _ => none := fun _ => rfl
  refine ⟨rfl, fun cs => ⟨?_, ?_, ?_, ?_⟩⟩
  · intro h
    rw [hsome, jsMax_nan _ h]
  · intro h
    rcases jsMax_inf _ h with h2 | h2 <;> rw [hsome, h2]
  · intro q hq
    obtain ⟨hm, hb⟩ := jsMax_fin _ q hq
    refine ⟨?_, hm, hb⟩
    rw [hsome, hq]
  · intro r hr
    exact extractConfidence_mem_Icc _ r hr

/-- Witness for `confidence_extractor_spec`: a mapping containing NaN
yields `null`; a well-formed mapping yields its maximum, 0.75. -/
theorem confidence_extractor_spec_witness :
    extractConfidence
      (some [("Normal", JsNum.fin (1/10)), ("Mild Dementia", JsNum.nan)]) =
      none ∧
    extractConfidence
      (some [("Normal", JsNum.fin (1/10)),
             ("Mild Dementia", JsNum.fin (3/4))]) = some (3/4) := by
  have hmax : jsMax (List.map Prod.snd
      [("Normal", JsNum.fin (1/10)), ("Mild Dementia", JsNum.fin (3/4))]) =
      JsNum.fin (3/4) := by
    show JsNum.max2 (.fin (1/10)) (JsNum.max2 (.fin (3/4)) .ninf) =
      JsNum.fin (3/4)
    rw [JsNum.max2_ninf_right]
    show JsNum.fin (max (1/10) (3/4)) = JsNum.fin (3/4)
    rw [max_eq_right (by norm_num : (1:ℚ)/10 ≤ 3/4)]
  constructor
  · exact (confidence_extractor_spec.2 _).1 (List.mem_cons_of_mem _
      (List.mem_cons_self _ _))
  · have h := ((confidence_extractor_spec.2
      [("Normal", JsNum.fin (1/10)), ("Mild Dementia", JsNum.fin (3/4))]).2.2.1
      (3/4) hmax).1
    rw [h, round4,
      show clamp01 (3/4) = 3/4 by norm_num [clamp01, min_def, max_def],
      show ((3:ℚ)/4) * 10000 = 7500 by norm_num]
    norm_num

theorem leadsWith_refl (l : List Char) : leadsWith l l = true := by
  induction l with
  | nil => rfl
  | cons a as ih => simp [leadsWith, ih]

/-- A string occurs as a substring at the end of any extension of itself. -/
theorem containsSeq_append_self (pre n : List Char) :
    containsSeq n (pre ++ n) = true := by
  induction pre with
  | nil =>
    cases n with
    | nil => rfl
    | cons c cs => simp [containsSeq, leadsWith_refl]
  | cons p ps ih => simp [containsSeq, ih]

/-- `(a ++ m).includes(m)` always holds. -/
theorem strIncludes_append_self (a m : String) :
    strIncludes (a ++ m) m = true := by
  unfold strIncludes
  rw [show (a ++ m).data = a.data ++ m.data from rfl]
  exact containsSeq_append_self a.data m.data

/-- A successful insert appends exactly the given row. -/
theorem insertVisit_ok (s : Store) (r : VisitRow)
    (h1 : validRowStage r.predicted_class = true)
    (h2 : fitsNumeric54 r.confidence = true)
    (h3 : s.patients.any (fun p => p.1 == r.patient_id) = true) :
    insertVisit s r = .ok { s with visits := s.visits ++ [r] } := by
  unfold insertVisit
  rw [h1, h2, h3]
  rfl

/-- A non-null value accepted by the enum check is one of the labels. -/
theorem validRowStage_sound (oc : Option String)
    (h : validRowStage oc = true) :
    ∀ c, oc = some c → c ∈ validDementiaStages := by
  intro c hc
  subst hc
  unfold validRowStage at h
  obtain ⟨x, hx, hbeq⟩ := List.any_eq_true.mp h
  exact (eq_of_beq hbeq) ▸ hx

/-- A non-null value accepted by the numeric(5,4) check is in range. -/
theorem fitsNumeric54_sound (oq : Option ℚ) (h : fitsNumeric54 oq = true) :
    ∀ q, oq = some q → -10 < q ∧ q < 10 := by
  intro q hq
  subst hq
  unfold fitsNumeric54 at h
  rw [Bool.and_eq_true, decide_eq_true_eq, decide_eq_true_eq] at h
  exact h

/-- The handler's behaviour on the non-MRI branch, given a successful
insert: it records the non-MRI row and reports `isValid := false`. -/
theorem processMri_nonMri (req : IngestRequest) (u f pid : String)
    (body : UpstreamResponse) (s s' : Store)
    (hauth : req.authUser = some u) (hfile : req.file = some f)
    (hpid : req.patientId = some pid) (hpid2 : pid ≠ "")
    (hmri : body.isMRI = false)
    (hins : insertVisit s (nonMriRow pid body u) = .ok s') :
    processMri req (.success body) s = ⟨.ok ⟨nonMriRow pid body u, false⟩, s'⟩ := by
  simp only [processMri, hauth, hfile, hpid]
  rw [if_neg hpid2]
  simp only [hmri, Bool.not_false, Bool.true_or, if_true]
  rw [hins]

/-- C5: for every authenticated upload whose classifier response has
`isMRI = false` (with an in-range `mriConfidence` and an existing
patient), the handler still persists exactly one visit: predicted stage
null, confidence equal to the upstream `mriConfidence`, insights
containing the upstream message text; and it returns success with
`isValid = false` instead of discarding the upload. -/
theorem non_mri_upload_recorded (req : IngestRequest) (u f pid m : String)
    (body : UpstreamResponse) (s : Store) (v : ℚ)
    (hauth : req.authUser = some u) (hfile : req.file = some f)
    (hpid : req.patientId = some pid) (hpid2 : pid ≠ "")
    (hmri : body.isMRI = false)
    (hconf : body.mriConfidence = some (JsNum.fin v))
    (hlo : -10 < v) (hhi : v < 10)
    (hmsg : body.message = some m)
    (hfk : s.patients.any (fun p => p.1 == pid) = true) :
    (processMri req (.success body) s).response =
      .ok ⟨nonMriRow pid body u, false⟩ ∧
    (processMri req (.success body) s).store.visits =
      s.visits ++ [nonMriRow pid body u] ∧
    (nonMriRow pid body u).predicted_class = none ∧
    (nonMriRow pid body u).confidence = some v ∧
    (nonMriRow pid body u).insights = some ("Not an MRI scan. " ++ m) ∧
    strIncludes ("Not an MRI scan. " ++ m) m = true := by
  have hins := insertVisit_ok s (nonMriRow pid body u)
    (by simp [nonMriRow, validRowStage])
    (by simp [nonMriRow, jsNumToDb, hconf, fitsNumeric54, hlo, hhi])
    (by simpa [nonMriRow] using hfk)
  have hrun := processMri_nonMri req u f pid body s _ hauth hfile hpid hpid2
    hmri hins
  rw [hrun]
  refine ⟨rfl, rfl, rfl, ?_, ?_, strIncludes_append_self _ m⟩
  · simp [nonMriRow, jsNumToDb, hconf]
  · simp [nonMriRow, hmsg]

/-- Witness for `non_mri_upload_recorded` — exactly end-to-end scenario 1
of the spec: `{isMRI: false, mriConfidence: 0.42, message: "no brain
structure detected"}` yields one stored visit with null stage, confidence
0.42, and the message inside the insights. -/
theorem non_mri_upload_recorded_witness :
    (processMri ⟨some "doctor-1", some "scan-bytes", some "patient-1"⟩
        (.success ⟨false, some "not_mri", some "no brain structure detected",
          some (JsNum.fin (42/100)), none⟩)
        ⟨[("patient-1", "Alice")], []⟩).response =
      .ok ⟨nonMriRow "patient-1"
        ⟨false, some "not_mri", some "no brain structure detected",
          some (JsNum.fin (42/100)), none⟩ "doctor-1", false⟩ ∧
    (processMri ⟨some "doctor-1", some "scan-bytes", some "patient-1"⟩
        (.success ⟨false, some "not_mri", some "no brain structure detected",
          some (JsNum.fin (42/100)), none⟩)
        ⟨[("patient-1", "Alice")], []⟩).store.visits =
      [] ++ [nonMriRow "patient-1"
        ⟨false, some "not_mri", some "no brain structure detected",
          some (JsNum.fin (42/100)), none⟩ "doctor-1"] ∧
    (nonMriRow "patient-1"
        ⟨false, some "not_mri", some "no brain structure detected",
          some (JsNum.fin (42/100)), none⟩ "doctor-1").predicted_class =
      none ∧
    (nonMriRow "patient-1"
        ⟨false, some "not_mri", some "no brain structure detected",
          some (JsNum.fin (42/100)), none⟩ "doctor-1").confidence =
      some (42/100) ∧
    (nonMriRow "patient-1"
        ⟨false, some "not_mri", some "no brain structure detected",
          some (JsNum.fin (42/100)), none⟩ "doctor-1").insights =
      some ("Not an MRI scan. " ++ "no brain structure detected") ∧
    strIncludes ("Not an MRI scan. " ++ "no brain structure detected")
      "no brain structure detected" = true :=
  non_mri_upload_recorded _ "doctor-1" "scan-bytes" "patient-1"
    "no brain structure detected" _ _ (42/100) rfl rfl rfl
    (by decide) rfl rfl (by norm_num) (by norm_num) rfl rfl

/-- C7: an authenticated ingestion request missing the image file or the
patient identifier fails with the corresponding validation error, leaves
the store unchanged, and its outcome is independent of the external
classifier — the failure happens before the classifier is consulted. -/
theorem ingestion_validation_before_upstream (req : IngestRequest)
    (u : String) (up up2 : UpstreamResult) (s : Store)
    (hauth : req.authUser = some u)
    (hmiss : req.file = none ∨ req.patientId = none ∨
      req.patientId = some "") :
    ((processMri req up s).response = .error .noFile ∨
     (processMri req up s).response = .error .noPatientId) ∧
    (processMri req up s).store = s ∧
    processMri req up s = processMri req up2 s := by
  cases hf : req.file with
  | none =>
    refine ⟨Or.inl ?_, ?_, ?_⟩ <;> simp [processMri, hauth, hf]
  | some f =>
    rcases hmiss with h | h | h
    · rw [hf] at h; exact Option.noConfusion h
    · refine ⟨Or.inr ?_, ?_, ?_⟩ <;> simp [processMri, hauth, hf, h]
    · refine ⟨Or.inr ?_, ?_, ?_⟩ <;> simp [processMri, hauth, hf, h]

/-- Witness for `ingestion_validation_before_upstream`: a request with no
patient identifier fails with the validation error, stores nothing, and
ignores the classifier outcome. -/
theorem ingestion_validation_before_upstream_witness :
    ((processMri ⟨some "doctor-1", some "scan-bytes", none⟩ (.failure 500)
        ⟨[], []⟩).response = .error .noFile ∨
     (processMri ⟨some "doctor-1", some "scan-bytes", none⟩ (.failure 500)
        ⟨[], []⟩).response = .error .noPatientId) ∧
    (processMri ⟨some "doctor-1", some "scan-bytes", none⟩ (.failure 500)
      ⟨[], []⟩).store = ⟨[], []⟩ ∧
    processMri ⟨some "doctor-1", some "scan-bytes", none⟩ (.failure 500)
        ⟨[], []⟩ =
      processMri ⟨some "doctor-1", some "scan-bytes", none⟩ (.failure 404)
        ⟨[], []⟩ :=
  ingestion_validation_before_upstream _ "doctor-1" _ _ _ rfl
    (Or.inr (Or.inl rfl))

/-- C6 (amended): predicted stages of stored visits are always enum
labels — the store's enum type rejects raw labels, and the final
variant's valid-MRI path only ever sends a normalized stage — and stored
confidences lie in the store's numeric(5,4) range; confidences computed
on the valid-MRI path lie in [0,1], but the non-MRI path persists the
upstream `mriConfidence` unclamped (see the counterexample). -/
theorem visit_invariant :
    (∀ (s : Store) (r : VisitRow) (s' : Store),
      insertVisit s r = .ok s' → storeInv s → storeInv s') ∧
    (∀ (pid : String) (body : UpstreamResponse)
      (analysis : UpstreamAnalysis) (pname : Option String) (uid c : String),
      (mriRow pid body analysis pname uid).predicted_class = some c →
      c ∈ validDementiaStages) ∧
    (∀ (pid : String) (body : UpstreamResponse)
      (analysis : UpstreamAnalysis) (pname : Option String) (uid : String)
      (q : ℚ),
      (mriRow pid body analysis pname uid).confidence = some q →
      0 ≤ q ∧ q ≤ 1) := by
  refine ⟨?_, ?_, ?_⟩
  · intro s r s' hins hinv
    unfold insertVisit at hins
    split_ifs at hins with h1 h2 h3
    injection hins with hins
    subst hins
    intro v hv
    rcases List.mem_append.mp hv with hv | hv
    · exact hinv v hv
    · rw [List.mem_singleton] at hv
      subst hv
      rw [Bool.not_eq_true', Bool.not_eq_false] at h1 h2
      exact ⟨validRowStage_sound _ h1, fitsNumeric54_sound _ h2⟩
  · intro pid body analysis pname uid c hc
    have hc2 : ((truthyOrNull analysis.predictedClass).bind
        mapToDementiaStage) = some c := hc
    obtain ⟨a, _, ha2⟩ := Option.bind_eq_some.mp hc2
    exact mapToDementiaStage_range a c ha2
  · intro pid body analysis pname uid q hq
    exact extractConfidence_mem_Icc analysis.confidences q hq

/-- Witness for `visit_invariant`: inserting a well-formed row into a
store satisfying the invariant preserves it. -/
theorem visit_invariant_witness :
    storeInv ⟨[("patient-1", "Alice")],
      [] ++ [⟨"patient-1", ⟨false, none, none, none, none⟩, none, none,
        none, "doctor-1"⟩]⟩ :=
  visit_invariant.1 ⟨[("patient-1", "Alice")], []⟩
    ⟨"patient-1", ⟨false, none, none, none, none⟩, none, none, none,
      "doctor-1"⟩ _ rfl (by intro v hv; cases hv)

/-- C6 fails as stated on the code: the non-MRI branch of the final
variant persists the upstream `mriConfidence` without clamping, so a
response with `mriConfidence = 1.3` produces a stored visit whose
confidence lies outside [0,1]. -/
theorem visit_invariant_counterexample :
    (processMri ⟨some "doctor-1", some "scan-bytes", some "patient-1"⟩
        (.success ⟨false, some "not_mri", some "not a brain MRI",
          some (JsNum.fin (13/10)), none⟩)
        ⟨[("patient-1", "Alice")], []⟩).store.visits.map VisitRow.confidence =
      [some (13/10)] ∧
    ¬ ((13/10 : ℚ) ≤ 1) := by
  constructor
  · have hins := insertVisit_ok ⟨[("patient-1", "Alice")], []⟩
      (nonMriRow "patient-1" ⟨false, some "not_mri", some "not a brain MRI",
        some (JsNum.fin (13/10)), none⟩ "doctor-1")
      (by simp [nonMriRow, validRowStage])
      (by norm_num [nonMriRow, jsNumToDb, fitsNumeric54])
      (by decide)
    have hrun := processMri_nonMri
      ⟨some "doctor-1", some "scan-bytes", some "patient-1"⟩
      "doctor-1" "scan-bytes" "patient-1"
      ⟨false, some "not_mri", some "not a brain MRI",
        some (JsNum.fin (13/10)), none⟩
      ⟨[("patient-1", "Alice")], []⟩ _ rfl rfl rfl (by decide) rfl hins
    rw [hrun]
    simp [nonMriRow, jsNumToDb]
  · norm_num

theorem stageSeries_length (vs : List ClientVisit) :
    (stageSeries vs).length = (sortedVisits vs).length := by
  simp [stageSeries]

/-- The regression denominator is positive whenever the series starts
with the indices 0 and 1. -/
theorem denominator0_pos (y0 y1 : ℚ) (rest : List (ℕ × ℚ)) :
    0 < denominator0 ((0, y0) :: (1, y1) :: rest) := by
  unfold denominator0
  simp only [List.map_cons, List.sum_cons]
  have hS : 0 ≤ (rest.map
      (fun p => ((p.1 : ℚ) - xMean ((0, y0) :: (1, y1) :: rest)) ^ 2)).sum := by
    apply List.sum_nonneg
    intro x hx
    obtain ⟨p, _, rfl⟩ := List.mem_map.mp hx
    positivity
  have h2 := sq_nonneg (2 * xMean ((0, y0) :: (1, y1) :: rest) - 1)
  push_cast
  nlinarith [hS, h2]

/-- With at least two visits the stage series has sequence indices
0, 1, ..., so its regression denominator is positive and the `|| 1`
guard never fires. -/
theorem stageSeries_denominator_pos (vs : List ClientVisit)
    (h : 2 ≤ (stageSeries vs).length) :
    0 < denominator0 (stageSeries vs) := by
  rw [stageSeries_length] at h
  cases hs : sortedVisits vs with
  | nil => rw [hs] at h; simp at h
  | cons a t =>
    cases t with
    | nil => rw [hs] at h; simp at h
    | cons b l =>
      have hshape : stageSeries vs =
          (0, mapStageToIndex a.predicted_class) ::
          (1, mapStageToIndex b.predicted_class) ::
          (List.enumFrom 2 l).map
            (fun p => (p.1, mapStageToIndex p.2.predicted_class)) := by
        unfold stageSeries
        rw [hs]
        rfl
      rw [hshape]
      exact denominator0_pos _ _ _

/-- C8: the disease-progression forecast is ordinary least-squares linear
regression of the stage ordinal against the visit sequence index — it is
computed only with at least two visits, its chart projections one and two
steps ahead are clamped to [0,3], and the risk-of-worsening probability
is the clamped projected delta divided by 2, clamped to [0,1]; on the
concrete scenario of two visits with ordinals 1 and 2 the slope is 1, the
two-step projection is 4, clamped to 3, and the risk is 1/2. -/
theorem progression_forecast_spec :
    (∀ series : List (ℕ × ℚ), series.length < 2 →
      forecastPoints series = []) ∧
    (∀ vs : List ClientVisit, 2 ≤ (stageSeries vs).length →
      forecastPoints (stageSeries vs) =
        [olsPredict (stageSeries vs)
            ((((stageSeries vs).getLastD (0, 0)).1 : ℚ) + 1),
         olsPredict (stageSeries vs)
            ((((stageSeries vs).getLastD (0, 0)).1 : ℚ) + 2)]) ∧
    (∀ (series : List (ℕ × ℚ)) (q : ℚ), q ∈ chartForecast series →
      0 ≤ q ∧ q ≤ 3) ∧
    (∀ series : List (ℕ × ℚ), forecastPoints series ≠ [] →
      riskProbability series =
        some (clamp01 ((clamp03 ((forecastPoints series).getLastD 0) -
          (series.getLastD (0, 0)).2) / 2))) ∧
    (stageSeries
        [⟨0, "patient-1", some "Very_Mild_Dementia", some (9/10), none⟩,
         ⟨1, "patient-1", some "Mild_Dementia", some (8/10), none⟩] =
      [(0, 1), (1, 2)] ∧
     olsSlope [(0, 1), (1, 2)] = 1 ∧
     forecastPoints [(0, 1), (1, 2)] = [3, 4] ∧
     chartForecast [(0, 1), (1, 2)] = [3, 3] ∧
     riskProbability [(0, 1), (1, 2)] = some (1/2)) := by
  have hfp : forecastPoints [(0, 1), (1, 2)] = [3, 4] := by
    simp only [forecastPoints, numerator, denominator0, xMean, yMean,
      List.map_cons, List.map_nil, List.sum_cons, List.sum_nil,
      List.length_cons, List.length_nil, List.getLastD]
    norm_num
  refine ⟨?_, ?_, ?_, ?_, by decide, ?_, hfp, ?_, ?_⟩
  · intro series h
    unfold forecastPoints
    rw [if_neg (by omega)]
  · intro vs h
    have hpos := stageSeries_denominator_pos vs h
    unfold forecastPoints olsPredict olsIntercept olsSlope
    rw [if_pos h, if_neg (ne_of_gt hpos)]
  · intro series q hq
    unfold chartForecast at hq
    obtain ⟨p, _, rfl⟩ := List.mem_map.mp hq
    unfold clamp03
    exact ⟨le_max_left 0 _, max_le (by norm_num) (min_le_left 3 p)⟩
  · intro series hne
    unfold riskProbability
    cases hfps : forecastPoints series with
    | nil => exact absurd hfps hne
    | cons a l => rfl
  · simp only [olsSlope, numerator, denominator0, xMean, yMean,
      List.map_cons, List.map_nil, List.sum_cons, List.sum_nil,
      List.length_cons, List.length_nil]
    norm_num
  · unfold chartForecast
    rw [hfp]
    simp only [List.map_cons, List.map_nil]
    norm_num [clamp03, min_def, max_def]
  · unfold riskProbability
    rw [hfp]
    simp only [List.getLastD]
    norm_num [clamp01, clamp03, min_def, max_def]

/-- Witness for `progression_forecast_spec`: one visit yields no
forecast; two visits yield the two least-squares projections. -/
theorem progression_forecast_spec_witness :
    forecastPoints (stageSeries
      [⟨0, "patient-1", some "Very_Mild_Dementia", some (9/10), none⟩]) =
      [] ∧
    forecastPoints (stageSeries
      [⟨0, "patient-1", some "Very_Mild_Dementia", some (9/10), none⟩,
       ⟨1, "patient-1", some "Mild_Dementia", some (8/10), none⟩]) =
      [olsPredict (stageSeries
          [⟨0, "patient-1", some "Very_Mild_Dementia", some (9/10), none⟩,
           ⟨1, "patient-1", some "Mild_Dementia", some (8/10), none⟩])
          ((((stageSeries
            [⟨0, "patient-1", some "Very_Mild_Dementia", some (9/10), none⟩,
             ⟨1, "patient-1", some "Mild_Dementia", some (8/10), none⟩]).getLastD
              (0, 0)).1 : ℚ) + 1),
       olsPredict (stageSeries
          [⟨0, "patient-1", some "Very_Mild_Dementia", some (9/10), none⟩,
           ⟨1, "patient-1", some "Mild_Dementia", some (8/10), none⟩])
          ((((stageSeries
            [⟨0, "patient-1", some "Very_Mild_Dementia", some (9/10), none⟩,
             ⟨1, "patient-1", some "Mild_Dementia", some (8/10), none⟩]).getLastD
              (0, 0)).1 : ℚ) + 2)] :=
  ⟨progression_forecast_spec.1 _ (by decide),
   progression_forecast_spec.2.1 _ (by decide)⟩

/-- C9: the anonymized CSV export carries exactly the headers anon_id,
date, stage, confidence, insights_len — no patient identity field — with
the anon_id cell the position-based placeholder P1, P2, ...; and the
exported bytes are identical across two runs whose visits agree on
everything except patient identity (noninterference). -/
theorem anonymized_export_noninterference :
    (∀ (idx : ℕ) (v : ClientVisit),
      (anonRow idx v).map Prod.fst =
        ["anon_id", "date", "stage", "confidence", "insights_len"] ∧
      csvLookup (anonRow idx v) "anon_id" =
        .str ("P" ++ toString (idx + 1))) ∧
    (∀ vs ws : List ClientVisit, List.Forall₂ agreeExceptPatient vs ws →
      exportAnonymizedCSV vs = exportAnonymizedCSV ws) := by
  constructor
  · intro idx v
    exact ⟨rfl, rfl⟩
  · intro vs ws hagree
    unfold exportAnonymizedCSV
    have key : ∀ k, (List.enumFrom k vs).map (fun p => anonRow p.1 p.2) =
        (List.enumFrom k ws).map (fun p => anonRow p.1 p.2) := by
      induction hagree with
      | nil => intro k; rfl
      | cons ha _ ih =>
        intro k
        simp only [List.enumFrom, List.map_cons]
        rw [ih (k + 1)]
        obtain ⟨h1, h2, h3, h4⟩ := ha
        unfold anonRow
        rw [h1, h2, h3, h4]
    rw [show vs.enum = List.enumFrom 0 vs from rfl,
      show ws.enum = List.enumFrom 0 ws from rfl, key 0]

/-- Witness for `anonymized_export_noninterference`: two single-visit
lists differing only in the patient identifier export identically. -/
theorem anonymized_export_noninterference_witness :
    exportAnonymizedCSV
      [⟨1000, "patient-1", some "Mild_Dementia", some (3/4), some "note"⟩] =
    exportAnonymizedCSV
      [⟨1000, "patient-2", some "Mild_Dementia", some (3/4), some "note"⟩] :=
  anonymized_export_noninterference.2 _ _
    (List.Forall₂.cons ⟨rfl, rfl, rfl, rfl⟩ List.Forall₂.nil)

/-- C10 (implicit): the dashboard maps a null stage, an empty stage, and
any label outside the four enum names to ordinal 0 — the value of
Normal — and the stage series driving the forecast is built from exactly
that mapping, so non-MRI or unclassified visits enter the progression
forecast and stage series as if the patient were at the Normal stage. -/
theorem unknown_stage_maps_to_normal :
    (∀ st : Option String,
      (∀ c, st = some c → c ∉ validDementiaStages) →
      mapStageToIndex st = 0) ∧
    mapStageToIndex (some "Normal") = 0 ∧
    (∀ vs, stageSeries vs =
      (sortedVisits vs).enum.map
        (fun p => (p.1, mapStageToIndex p.2.predicted_class))) := by
  refine ⟨?_, rfl, fun vs => rfl⟩
  intro st h
  cases st with
  | none => rfl
  | some c =>
    have hc := h c rfl
    by_cases h0 : c = ""
    · simp [mapStageToIndex, h0]
    · have h1 : c ≠ "Normal" := fun he => hc (he ▸ by decide)
      have h2 : c ≠ "Very_Mild_Dementia" := fun he => hc (he ▸ by decide)
      have h3 : c ≠ "Mild_Dementia" := fun he => hc (he ▸ by decide)
      have h4 : c ≠ "Moderate_Dementia" := fun he => hc (he ▸ by decide)
      simp [mapStageToIndex, h0, h1, h2, h3, h4]

/-- Witness for `unknown_stage_maps_to_normal` at a non-enum label. -/
theorem unknown_stage_maps_to_normal_witness :
    mapStageToIndex (some "Severe Dementia") = 0 :=
  unknown_stage_maps_to_normal.1 (some "Severe Dementia")
    (by intro c hc; injection hc with hc; subst hc; decide)

end MindScan
